import Mathlib

/-!
Verification development for the nanoclaw delegation subsystem and its
Telegram channel adapter.

The delegation coordinator (authorization, pool accounting, outcome files,
requester-side polling) is embedded from the design's code snippets in
`src/plan.md`; the Telegram adapter is embedded from
`src/src/channels/telegram.ts`.  Timestamps, display names, message ids and
log lines are passed through unchanged by the code and are omitted from the
model; file-system writes are modelled as the list of (path, payload) pairs
the code issues.
-/

namespace Nanoclaw

/-! ## Configuration constants (`src/config.ts` additions, plan.md §4) -/

def DELEGATION_POLL_INTERVAL : Nat := 2000
def DELEGATION_DEFAULT_TIMEOUT : Nat := 300
def DELEGATION_MAX_TIMEOUT : Nat := 1800
def MAX_DELEGATION_CONTAINERS : Nat := 3

/-! ## Delegation concurrency tracking (`src/container-runner.ts`, plan.md §8)

`canDelegate` and `trackDelegation` mirror the snippet: the counter is
incremented before the work runs and decremented in a `finally`, so the
decrement happens exactly once whether the work resolves or rejects. -/

def canDelegate (activeDelegations : Nat) : Bool :=
  activeDelegations < MAX_DELEGATION_CONTAINERS

/-- `trackDelegation`: `activeDelegations++; return fn().finally(() => activeDelegations--)`.
The work's outcome is an `Except` (resolved or rejected promise); the
returned counter reflects the increment followed by the `finally` decrement. -/
def trackDelegation (activeDelegations : Nat) (fn : Except String α) :
    Nat × Except String α :=
  let incremented := activeDelegations + 1
  (incremented - 1, fn)

/-! ## Outcome files (`handleDelegation`, plan.md §3) -/

/-- JavaScript `a || b` on strings: the empty string is falsy. -/
def jsOrStr (a b : String) : String := if a = "" then b else a

/-- JavaScript `a || b` where `a` may be `undefined` (`none`) or a string. -/
def jsOrOptStr (a : Option String) (b : String) : String :=
  match a with
  | none => b
  | some s => jsOrStr s b

/-- The streaming callback `async (out) => { if (out.result) results.push(out.result) }`:
only truthy (present and non-empty) `result` fields are buffered. -/
def collectResults (outs : List (Option String)) : List String :=
  outs.filterMap fun o =>
    match o with
    | none => none
    | some s => if s = "" then none else some s

/-- `Array.prototype.join(sep)`: empty array gives the empty string, the
elements are concatenated in order with `sep` between consecutive ones. -/
def joinSep (sep : String) : List String → String
  | [] => ""
  | [s] => s
  | s :: rest => s ++ sep ++ joinSep sep rest

/-- `results.join('\n\n') || output.result || '(no output)'` of `handleDelegation`:
`outs` is the stream of `out.result` fields seen by the callback and `final`
is the terminal `output.result` of `runContainerAgent`. -/
def resultText (outs : List (Option String)) (final : Option String) : String :=
  jsOrStr (joinSep "\n\n" (collectResults outs)) (jsOrOptStr final "(no output)")

/-- A delegation outcome artifact: the JSON payload written for the requester. -/
inductive DelegationOutcome where
  | success (result : String) (targetGroup : String)
  | error (error : String) (targetGroup : String)
deriving DecidableEq, Repr

def resultFileName (requestId : String) : String :=
  "delegate-result-" ++ requestId ++ ".json"

def errorFileName (requestId : String) : String :=
  "delegate-error-" ++ requestId ++ ".json"

/-- The run of the spawned container: either it resolves with the streamed
`out.result` fields plus the terminal output, or it rejects (error/timeout). -/
abbrev RunResult := Except String (List (Option String) × Option String)

/-- The single outcome `handleDelegation` produces for a run: the `try`
branch yields a success outcome, the `catch` branch an error outcome. -/
def handleDelegationOutcome (targetFolder : String) (run : RunResult) :
    DelegationOutcome :=
  match run with
  | .ok (outs, final) => .success (resultText outs final) targetFolder
  | .error err => .error err targetFolder

/-- `handleDelegation` (plan.md §3): the list of outcome files it writes for
`requestId`, each as (file name, payload).  The `try` branch writes the
success file; the `catch` branch writes the error file; nothing escapes. -/
def handleDelegationWrites (targetFolder requestId : String) (run : RunResult) :
    List (String × DelegationOutcome) :=
  match run with
  | .ok _ => [(resultFileName requestId, handleDelegationOutcome targetFolder run)]
  | .error _ => [(errorFileName requestId, handleDelegationOutcome targetFolder run)]

/-! ## Authorization (plan.md "Authorization Model" table) -/

inductive AuthDecision where
  | allow
  | denyEscalation
  | denyNotAllowed
  | unknownGroup
deriving DecidableEq, Repr

/-- The authorization table, evaluated after the `processTaskIpc` registration
lookup: main → any registered group; any group → itself; non-main → other
non-main iff listed in `allowDelegation`; non-main → main never. -/
def authorizeDelegation (mainFolder : String) (registeredFolders : List String)
    (sourceFolder targetFolder : String) (allowDelegation : List String) :
    AuthDecision :=
  if ¬ registeredFolders.contains targetFolder then .unknownGroup
  else if sourceFolder = mainFolder then .allow
  else if sourceFolder = targetFolder then .allow
  else if targetFolder = mainFolder then .denyEscalation
  else if allowDelegation.contains targetFolder then .allow
  else .denyNotAllowed

/-! ## The `delegate` task dispatch (`processTaskIpc` case 'delegate') -/

structure DelegateStep where
  /-- `activeDelegations` after the whole request has been handled. -/
  state : Nat
  /-- whether `runContainerAgent` was invoked (a target session spawned). -/
  spawned : Bool
  outcome : DelegationOutcome
deriving DecidableEq, Repr

/-- One `delegate` request through `processTaskIpc`: registration lookup and
authorization first; then the pool check — at the limit the requester gets a
busy error immediately (never queued); otherwise the spawn runs inside
`trackDelegation` and `handleDelegation` converts the run into one outcome. -/
def processDelegate (mainFolder : String) (registeredFolders : List String)
    (sourceFolder targetFolder : String) (allowDelegation : List String)
    (activeDelegations : Nat) (run : RunResult) : DelegateStep :=
  match authorizeDelegation mainFolder registeredFolders sourceFolder targetFolder
      allowDelegation with
  | .unknownGroup =>
      ⟨activeDelegations, false, .error "Unknown group" targetFolder⟩
  | .denyEscalation =>
      ⟨activeDelegations, false, .error "Not authorized" targetFolder⟩
  | .denyNotAllowed =>
      ⟨activeDelegations, false, .error "Not authorized" targetFolder⟩
  | .allow =>
      if canDelegate activeDelegations then
        let tracked := trackDelegation activeDelegations run
        ⟨tracked.1, true, handleDelegationOutcome targetFolder tracked.2⟩
      else
        ⟨activeDelegations, false, .error "busy" targetFolder⟩

/-! ## Pool traces

Interleaved increments/decrements of `activeDelegations` across concurrent
delegations.  An `acq` is the `activeDelegations++` at the head of
`trackDelegation` (executed only after a `canDelegate` check); a `rel` is the
`finally` decrement.  `releasesMatched` records that every decrement is the
`finally` of an earlier increment still outstanding; `acquiresGuarded`
records that every increment happened while `canDelegate` was true. -/

inductive PoolEvent where
  | acq
  | rel
deriving DecidableEq, Repr

def poolStep (n : Int) (e : PoolEvent) : Int :=
  match e with
  | .acq => n + 1
  | .rel => n - 1

/-- Counter value after replaying `events` from `n`. -/
def poolRun (n : Int) (events : List PoolEvent) : Int :=
  events.foldl poolStep n

def releasesMatched (n : Int) : List PoolEvent → Bool
  | [] => true
  | .acq :: es => releasesMatched (n + 1) es
  | .rel :: es => decide (0 < n) && releasesMatched (n - 1) es

def acquiresGuarded (n : Int) : List PoolEvent → Bool
  | [] => true
  | .acq :: es =>
      decide (n < (MAX_DELEGATION_CONTAINERS : Int)) && acquiresGuarded (n + 1) es
  | .rel :: es => acquiresGuarded (n - 1) es

/-! ## Requester-side polling (`delegate` MCP tool handler, plan.md §1)

The tool polls the caller's input directory every `DELEGATION_POLL_INTERVAL`
milliseconds: found result file → read, parse, delete, return; found error
file → read, parse, delete, return; timeout → client-side timeout error.
Tick `t` is the poll at time `t * DELEGATION_POLL_INTERVAL`; the environment
maps each tick to the content of the two files at that moment. -/

structure PollEnv where
  resultAt : Nat → Option String
  errorAt : Nat → Option String

inductive PollOutcome where
  | result (content : String)
  | error (content : String)
  | timeout
deriving DecidableEq, Repr

/-- The polling loop, returning the outcome together with the list of files
it deleted (the found artifact is consumed: read then deleted). -/
def pollLoop (env : PollEnv) (requestId : String) :
    Nat → Nat → PollOutcome × List String
  | _, 0 => (.timeout, [])
  | tick, fuel + 1 =>
      match env.resultAt tick with
      | some c => (.result c, [resultFileName requestId])
      | none =>
          match env.errorAt tick with
          | some c => (.error c, [errorFileName requestId])
          | none => pollLoop env requestId (tick + 1) fuel

/-- `awaitResult`: poll from time 0, one poll per interval, for
`timeoutMs` milliseconds. -/
def awaitResult (env : PollEnv) (requestId : String) (timeoutMs : Nat) :
    PollOutcome × List String :=
  pollLoop env requestId 0 (timeoutMs / DELEGATION_POLL_INTERVAL)

/-! ## Telegram channel (`src/src/channels/telegram.ts`)

The handlers installed in `connect()` are modelled as a function from one
inbound update to the list of observable effects it produces: replies sent
back to the chat, `onChatMetadata` / `onMessage` invocations, and admin
command executions.  `TELEGRAM_ALLOWED_USERS`, `ASSISTANT_NAME`,
`TRIGGER_PATTERN` and the registered-groups lookup come from the channel's
environment and are fields of `TgConfig`; the reply text of an admin command
is the external command's result, abstracted as `adminResult`. -/

structure TgEntity where
  etype : String
  offset : Nat
  length : Nat
deriving DecidableEq, Repr

structure TgConfig where
  /-- `TELEGRAM_ALLOWED_USERS` as a list of user-id strings. -/
  allowedUsers : List String
  assistantName : String
  /-- `TRIGGER_PATTERN.test` -/
  trigger : String → Bool
  /-- `registeredGroups()`: jid ↦ group folder. -/
  registeredGroups : List (String × String)
  /-- whether `opts.adminCommands` is provided. -/
  adminAvailable : Bool
  /-- `ctx.me?.username` -/
  botUsername : Option String
  /-- result string returned by the named admin command. -/
  adminResult : String → String

inductive TgUpdate where
  | textMsg (userId chatId msgText : String) (entities : List TgEntity)
  | nonTextMsg (userId chatId placeholder : String) (caption : Option String)
deriving Repr

inductive TgEffect where
  | reply (text : String)
  | chatMetadata (jid : String)
  | message (jid content sender : String)
  | adminCommand (name folder : String)
deriving DecidableEq, Repr

def TgEffect.isReply : TgEffect → Bool
  | .reply _ => true
  | _ => false

def tgJid (chatId : String) : String := "tg:" ++ chatId

/-- `TELEGRAM_ALLOWED_USERS.size > 0 && !TELEGRAM_ALLOWED_USERS.has(userId)`
negated: the sender passes the allowlist. -/
def allowedUser (cfg : TgConfig) (userId : String) : Bool :=
  cfg.allowedUsers.isEmpty || cfg.allowedUsers.contains userId

def folderOf (cfg : TgConfig) (jid : String) : Option String :=
  (cfg.registeredGroups.find? fun p => p.1 = jid).map Prod.snd

def updUser : TgUpdate → String
  | .textMsg u _ _ _ => u
  | .nonTextMsg u _ _ _ => u

/-- Character-wise lowering, modelling JS `toLowerCase` on the identifier
alphabet used by Telegram usernames. -/
def jsToLower (s : String) : String := (s.toList.map Char.toLower).asString

/-- JS `content.substring(a, b)` over the character sequence. -/
def substringJs (s : String) (a b : Nat) : String :=
  ((s.toList.drop a).take (b - a)).asString

/-- The `entities.some(...)` test: a `mention` entity whose text, lowered,
equals `@` + the (already lowered) bot username. -/
def isBotMentioned (botUsernameLower : String) (content : String)
    (entities : List TgEntity) : Bool :=
  entities.any fun e =>
    e.etype = "mention" &&
    jsToLower (substringJs content e.offset (e.offset + e.length))
      = "@" ++ botUsernameLower

/-- Mention translation in the `message:text` handler: when the bot is
mentioned and `TRIGGER_PATTERN` does not already match, the content is
`@ASSISTANT_NAME ` + original; otherwise unchanged. -/
def translateMention (cfg : TgConfig) (content : String)
    (entities : List TgEntity) : String :=
  match cfg.botUsername with
  | none => content
  | some u =>
      if isBotMentioned (jsToLower u) content entities && !cfg.trigger content then
        "@" ++ cfg.assistantName ++ " " ++ content
      else content

/-- `text.startsWith('/')`. -/
def isCommandText (s : String) : Bool :=
  match s.toList with
  | c :: _ => c = '/'
  | [] => false

/-- The command name: characters after the `/`, up to a space or `@`. -/
def cmdName (s : String) : String :=
  ((s.toList.drop 1).takeWhile fun c => c ≠ ' ' && c ≠ '@').asString

/-- `adminGuard`: effects it emits plus the group folder on success. -/
def adminGuard (cfg : TgConfig) (userId chatId : String) :
    List TgEffect × Option String :=
  if !allowedUser cfg userId then ([], none)
  else
    match folderOf cfg (tgJid chatId) with
    | none => ([.reply "This chat is not registered."], none)
    | some folder =>
        if !cfg.adminAvailable then ([.reply "Admin commands not available."], none)
        else ([], some folder)

/-- The `bot.command(...)` handlers.  `/chatid` and `/ping` reply
unconditionally; the three per-group admin commands go through `adminGuard`;
`/rebuild` checks the allowlist itself and skips the registration check.
(The `/chatid` reply's name/type decoration is omitted.) -/
def handleCommand (cfg : TgConfig) (name userId chatId : String) :
    List TgEffect :=
  if name = "chatid" then
    [.reply ("Chat ID: tg:" ++ chatId)]
  else if name = "ping" then
    [.reply (cfg.assistantName ++ " is online.")]
  else if name = "reset_session" ∨ name = "reset_memory" ∨ name = "restart" then
    match adminGuard cfg userId chatId with
    | (effs, none) => effs
    | (effs, some folder) =>
        effs ++ [.adminCommand name folder, .reply (cfg.adminResult name)]
  else if name = "rebuild" then
    if !allowedUser cfg userId then []
    else if !cfg.adminAvailable then [.reply "Admin commands not available."]
    else
      [.reply "Rebuilding container image...", .adminCommand "rebuild" "",
       .reply (cfg.adminResult "rebuild")]
  else []

/-- The `message:text` handler: skip commands; drop unauthorized senders;
translate mentions; record chat metadata (before the registration check);
deliver to `onMessage` only for registered chats. -/
def handleText (cfg : TgConfig) (userId chatId msgText : String)
    (entities : List TgEntity) : List TgEffect :=
  if isCommandText msgText then []
  else if !allowedUser cfg userId then []
  else
    let jid := tgJid chatId
    let content := translateMention cfg msgText entities
    .chatMetadata jid ::
      (match folderOf cfg jid with
       | none => []
       | some _ => [.message jid content userId])

/-- `storeNonText`: drop unauthorized senders, drop unregistered chats, then
record metadata and deliver the placeholder (plus caption). -/
def handleNonText (cfg : TgConfig) (userId chatId placeholder : String)
    (caption : Option String) : List TgEffect :=
  if !allowedUser cfg userId then []
  else
    let jid := tgJid chatId
    match folderOf cfg jid with
    | none => []
    | some _ =>
        let cap := match caption with | some c => " " ++ c | none => ""
        [.chatMetadata jid, .message jid (placeholder ++ cap) userId]

/-- One inbound update through the registered handlers: a command text is
consumed by its `bot.command` middleware (the `message:text` handler ignores
`/`-texts); other texts go to the `message:text` handler; non-text messages
to their `storeNonText` wrapper. -/
def handleUpdate (cfg : TgConfig) : TgUpdate → List TgEffect
  | .textMsg userId chatId msgText entities =>
      if isCommandText msgText then handleCommand cfg (cmdName msgText) userId chatId
      else handleText cfg userId chatId msgText entities
  | .nonTextMsg userId chatId placeholder caption =>
      handleNonText cfg userId chatId placeholder caption

/-- True for the updates the claim calls plain messages: non-command texts
and non-text messages. -/
def plainMessage : TgUpdate → Bool
  | .textMsg _ _ t _ => !isCommandText t
  | .nonTextMsg _ _ _ _ => true

/-! ## `TelegramChannel.sendMessage` chunking -/

def TELEGRAM_MAX_LENGTH : Nat := 4096

/-- The slicing loop `for (let i = 0; i < text.length; i += MAX_LENGTH)`:
each iteration sends `text.slice(i, i + MAX_LENGTH)`. -/
def chunkText (l : List Char) : List (List Char) :=
  if l = [] then []
  else l.take TELEGRAM_MAX_LENGTH :: chunkText (l.drop TELEGRAM_MAX_LENGTH)
termination_by l.length
decreasing_by
  simp only [List.length_drop, TELEGRAM_MAX_LENGTH]
  rename_i h
  have : 0 < l.length := List.length_pos.mpr h
  omega

/-- The sequence of `bot.api.sendMessage` payloads `sendMessage` issues for
`text`: one call when the length is within the Telegram limit, the slicing
loop otherwise. -/
def sendMessageCalls (text : List Char) : List (List Char) :=
  if text.length ≤ TELEGRAM_MAX_LENGTH then [text] else chunkText text

/-- The `try` body followed by the `catch`: whatever the API does (each call
may reject), `sendMessage` only logs and resolves. -/
def sendMessage (api : List Char → Except String Unit) (text : List Char) :
    Except String Unit :=
  match (sendMessageCalls text).foldlM (fun _ c => api c) () with
  | .ok _ => .ok ()
  | .error _ => .ok ()

/-- A concrete registry used to instantiate theorems on sample inputs. -/
def registeredFolders₀ : List String := ["main", "browser", "research"]

/-! ## Theorems -/

/-- C1: a delegate request arriving while `MAX_DELEGATION_CONTAINERS`
delegation-spawned sessions are active fails immediately with a busy-error
outcome — no session is spawned, the counter is untouched, and the request is
never queued or blocked (the step returns the error outcome directly). -/
theorem delegate_busy_fails_fast
    (mainFolder : String) (registeredFolders : List String)
    (sourceFolder targetFolder : String) (allowDelegation : List String)
    (st : Nat) (run : RunResult)
    (hauth : authorizeDelegation mainFolder registeredFolders sourceFolder
      targetFolder allowDelegation = .allow)
    (hfull : MAX_DELEGATION_CONTAINERS ≤ st) :
    processDelegate mainFolder registeredFolders sourceFolder targetFolder
      allowDelegation st run = ⟨st, false, .error "busy" targetFolder⟩ := by
  unfold processDelegate
  rw [hauth]
  have hcd : canDelegate st = false := by
    unfold canDelegate
    exact decide_eq_false (by omega)
  simp [hcd]

theorem delegate_busy_fails_fast_witness :
    processDelegate "main" ["main", "gmail-reader"] "main" "gmail-reader" [] 3
      (Except.ok ([], none)) = ⟨3, false, .error "busy" "gmail-reader"⟩ :=
  delegate_busy_fails_fast "main" ["main", "gmail-reader"] "main" "gmail-reader"
    [] 3 (Except.ok ([], none)) (by decide) (by decide)

/-- Unfolding lemma for `poolRun` on a cons. -/
theorem poolRun_cons (n : Int) (e : PoolEvent) (es : List PoolEvent) :
    poolRun n (e :: es) = poolRun (poolStep n e) es := by
  simp [poolRun]

/-- Every prefix of a trace whose releases are matched and whose acquires are
guarded keeps the counter within `[0, MAX_DELEGATION_CONTAINERS]`. -/
theorem poolRun_prefix_bounds :
    ∀ (pre suf : List PoolEvent) (n : Int),
      releasesMatched n (pre ++ suf) = true →
      acquiresGuarded n (pre ++ suf) = true →
      0 ≤ n → n ≤ (MAX_DELEGATION_CONTAINERS : Int) →
      0 ≤ poolRun n pre ∧ poolRun n pre ≤ (MAX_DELEGATION_CONTAINERS : Int) := by
  intro pre
  induction pre with
  | nil =>
      intro suf n _ _ h0 hmax
      simpa [poolRun] using ⟨h0, hmax⟩
  | cons e pre ih =>
      intro suf n hm hg h0 hmax
      cases e with
      | acq =>
          rw [List.cons_append] at hm hg
          simp only [releasesMatched] at hm
          simp only [acquiresGuarded, Bool.and_eq_true, decide_eq_true_eq] at hg
          rw [poolRun_cons]
          exact ih suf (n + 1) hm hg.2 (by omega) (by omega)
      | rel =>
          rw [List.cons_append] at hm hg
          simp only [releasesMatched, Bool.and_eq_true, decide_eq_true_eq] at hm
          simp only [acquiresGuarded] at hg
          rw [poolRun_cons]
          exact ih suf (n - 1) hm.2 hg (by omega) (by omega)

/-- C2: the `finally` decrement of `trackDelegation` runs exactly once per
increment — for every run, resolved or rejected, the counter returns to its
starting value and the run's outcome is passed through — and along any
interleaving whose releases are matched to acquires and whose acquires
happened under the `canDelegate` guard, `activeDelegations` never goes
negative and never exceeds `MAX_DELEGATION_CONTAINERS`. -/
theorem delegation_pool_balanced :
    (∀ (st : Nat) (run : RunResult),
        (trackDelegation st run).1 = st ∧ (trackDelegation st run).2 = run) ∧
    (∀ (pre suf : List PoolEvent),
        releasesMatched 0 (pre ++ suf) = true →
        acquiresGuarded 0 (pre ++ suf) = true →
        0 ≤ poolRun 0 pre ∧ poolRun 0 pre ≤ (MAX_DELEGATION_CONTAINERS : Int)) := by
  constructor
  · intro st run
    exact ⟨rfl, rfl⟩
  · intro pre suf hm hg
    exact poolRun_prefix_bounds pre suf 0 hm hg (by omega) (by simp [MAX_DELEGATION_CONTAINERS])

theorem delegation_pool_balanced_witness :
    ((trackDelegation 1 (Except.error "timeout" : RunResult)).1 = 1 ∧
      (trackDelegation 1 (Except.error "timeout" : RunResult)).2
        = (Except.error "timeout" : RunResult)) ∧
    (0 ≤ poolRun 0 [PoolEvent.acq] ∧
      poolRun 0 [PoolEvent.acq] ≤ (MAX_DELEGATION_CONTAINERS : Int)) :=
  ⟨delegation_pool_balanced.1 1 (Except.error "timeout"),
   delegation_pool_balanced.2 [PoolEvent.acq] [PoolEvent.rel] (by decide) (by decide)⟩

/-- C3: for every `requestId`, `handleDelegation` writes exactly one outcome
file — the success file exactly when the run resolved, the error file exactly
when it rejected, never both — and every run, including a rejecting one, is
converted into a written outcome rather than a propagated exception. -/
theorem handleDelegation_one_outcome (targetFolder requestId : String) :
    (∀ run : RunResult, (handleDelegationWrites targetFolder requestId run).length = 1) ∧
    (∀ outs final,
        handleDelegationWrites targetFolder requestId (Except.ok (outs, final)) =
          [(resultFileName requestId,
            .success (resultText outs final) targetFolder)]) ∧
    (∀ err,
        handleDelegationWrites targetFolder requestId (Except.error err) =
          [(errorFileName requestId, .error err targetFolder)]) := by
  refine ⟨?_, ?_, ?_⟩
  · intro run
    rcases run with err | ⟨outs, final⟩ <;> simp [handleDelegationWrites]
  · intro outs final
    simp [handleDelegationWrites, handleDelegationOutcome]
  · intro err
    simp [handleDelegationWrites, handleDelegationOutcome]

/-- C4: the delegation authorization decision matches the table: main may
delegate to any registered group; any group may delegate to itself; a
non-main group may delegate to another non-main group iff the target folder
is in its `allowDelegation` set; a non-main group is denied delegation to the
main group even when `allowDelegation` lists the main folder; an unregistered
target yields the unknown-group error. -/
theorem authorization_matches_table (mainFolder : String)
    (registeredFolders : List String) (src tgt : String)
    (allowD : List String) :
    (registeredFolders.contains tgt = true → src = mainFolder →
        authorizeDelegation mainFolder registeredFolders src tgt allowD = .allow) ∧
    (registeredFolders.contains tgt = true → src = tgt →
        authorizeDelegation mainFolder registeredFolders src tgt allowD = .allow) ∧
    (registeredFolders.contains tgt = true → src ≠ mainFolder → src ≠ tgt →
      tgt ≠ mainFolder →
        (authorizeDelegation mainFolder registeredFolders src tgt allowD = .allow ↔
          allowD.contains tgt = true)) ∧
    (registeredFolders.contains tgt = true → src ≠ mainFolder → tgt = mainFolder →
        authorizeDelegation mainFolder registeredFolders src tgt allowD
          = .denyEscalation) ∧
    (registeredFolders.contains tgt = false →
        authorizeDelegation mainFolder registeredFolders src tgt allowD
          = .unknownGroup) := by
  refine ⟨?_, ?_, ?_, ?_, ?_⟩
  · intro hreg hmain
    have hreg' : tgt ∈ registeredFolders := by simpa using hreg
    simp [authorizeDelegation, hreg', hmain]
  · intro hreg hself
    subst hself
    have hreg' : src ∈ registeredFolders := by simpa using hreg
    by_cases hmain : src = mainFolder
    · subst hmain
      simp [authorizeDelegation, hreg']
    · simp [authorizeDelegation, hreg', hmain]
  · intro hreg hmain hself htgt
    have hreg' : tgt ∈ registeredFolders := by simpa using hreg
    by_cases hallow : tgt ∈ allowD <;>
      simp [authorizeDelegation, hreg', hmain, hself, htgt, hallow]
  · intro hreg hmain htgt
    have hreg' : tgt ∈ registeredFolders := by simpa using hreg
    have hself : src ≠ tgt := fun h => hmain (h.trans htgt)
    subst htgt
    simp [authorizeDelegation, hreg', hmain, hself]
  · intro hreg
    have hreg' : tgt ∉ registeredFolders := by simpa using hreg
    simp [authorizeDelegation, hreg']

theorem authorization_matches_table_witness :
    (registeredFolders₀.contains "main" = true ∧
      authorizeDelegation "main" registeredFolders₀ "research" "main"
        ["main", "browser"] = .denyEscalation) ∧
    (registeredFolders₀.contains "finance" = false ∧
      authorizeDelegation "main" registeredFolders₀ "research" "finance"
        ["main", "browser"] = .unknownGroup) :=
  ⟨⟨by decide,
    (authorization_matches_table "main" registeredFolders₀ "research" "main"
      ["main", "browser"]).2.2.2.1 (by decide) (by decide) rfl⟩,
   ⟨by decide,
    (authorization_matches_table "main" registeredFolders₀ "research" "finance"
      ["main", "browser"]).2.2.2.2 (by decide)⟩⟩

/-- The streaming callback only buffers non-empty fragments. -/
theorem collectResults_mem_ne_empty (outs : List (Option String)) :
    ∀ s ∈ collectResults outs, s ≠ "" := by
  intro s hs
  rcases List.mem_filterMap.mp hs with ⟨o, _, ho⟩
  rcases o with _ | t
  · simp at ho
  · by_cases ht : t = "" <;> simp [ht] at ho
    rcases ho with ⟨rfl⟩
    exact ht

/-- A string with a non-empty left part is non-empty. -/
theorem append_ne_empty_left (a b : String) (ha : a ≠ "") : a ++ b ≠ "" := by
  intro h
  apply ha
  have hdata : a.data ++ b.data = [] := by
    have := congrArg String.data h
    simpa [String.data_append] using this
  exact String.ext (List.append_eq_nil.mp hdata).1

/-- Joining a non-empty list of non-empty fragments is non-empty. -/
theorem joinSep_ne_empty (sep : String) :
    ∀ l : List String, l ≠ [] → (∀ s ∈ l, s ≠ "") → joinSep sep l ≠ "" := by
  intro l
  match l with
  | [] => intro h _; exact absurd rfl h
  | [s] =>
      intro _ hne
      simpa [joinSep] using hne s (by simp)
  | s :: t :: rest =>
      intro _ hne
      have hs : s ≠ "" := hne s (by simp)
      show s ++ sep ++ joinSep sep (t :: rest) ≠ ""
      exact append_ne_empty_left _ _ (append_ne_empty_left _ _ hs)

/-- C5: the success result text is the buffered fragments joined in arrival
order by a paragraph break; with no fragments it falls back to the session's
terminal summary; with that also absent (or empty) it is the literal
"(no output)"; it is never the empty string; and two fragments "Alice" and
"Bob" yield "Alice\n\nBob". -/
theorem delegation_result_text (outs : List (Option String)) (final : Option String) :
    (collectResults outs ≠ [] →
        resultText outs final = joinSep "\n\n" (collectResults outs)) ∧
    (collectResults outs = [] → ∀ s, final = some s → s ≠ "" →
        resultText outs final = s) ∧
    (collectResults outs = [] → (final = none ∨ final = some "") →
        resultText outs final = "(no output)") ∧
    resultText outs final ≠ "" ∧
    resultText [some "Alice", some "Bob"] none = "Alice\n\nBob" := by
  have hjoin : collectResults outs ≠ [] → joinSep "\n\n" (collectResults outs) ≠ "" :=
    fun h => joinSep_ne_empty "\n\n" (collectResults outs) h
      (collectResults_mem_ne_empty outs)
  refine ⟨?_, ?_, ?_, ?_, ?_⟩
  · intro h
    simp [resultText, jsOrStr, hjoin h]
  · intro h s hfin hs
    subst hfin
    simp [resultText, h, joinSep, jsOrStr, jsOrOptStr, hs]
  · intro h hfin
    rcases hfin with rfl | rfl <;>
      simp [resultText, h, joinSep, jsOrStr, jsOrOptStr]
  · by_cases h : collectResults outs = []
    · rcases final with _ | s
      · simp [resultText, h, joinSep, jsOrStr, jsOrOptStr]
      · by_cases hs : s = "" <;>
          simp [resultText, h, joinSep, jsOrStr, jsOrOptStr, hs]
    · simp [resultText, jsOrStr, hjoin h]
  · rfl

theorem delegation_result_text_witness :
    resultText [some "Alice", some "Bob"] none = "Alice\n\nBob" ∧
    resultText [] (some "summary") = "summary" ∧
    resultText [some ""] none = "(no output)" :=
  ⟨(delegation_result_text [some "Alice", some "Bob"] none).1 (by decide),
   (delegation_result_text [] (some "summary")).2.1 (by decide) "summary" rfl (by decide),
   (delegation_result_text [some ""] none).2.2.1 (by decide) (Or.inl rfl)⟩

/-- C6: a delegate request rejected by authorization, or targeting an
unregistered folder, yields an error outcome in the same step, spawns no
target session, and leaves `activeDelegations` unchanged. -/
theorem rejected_delegation_no_effect
    (mainFolder : String) (registeredFolders : List String)
    (sourceFolder targetFolder : String) (allowDelegation : List String)
    (st : Nat) (run : RunResult)
    (hrej : authorizeDelegation mainFolder registeredFolders sourceFolder
      targetFolder allowDelegation ≠ .allow) :
    (processDelegate mainFolder registeredFolders sourceFolder targetFolder
        allowDelegation st run).state = st ∧
    (processDelegate mainFolder registeredFolders sourceFolder targetFolder
        allowDelegation st run).spawned = false ∧
    ∃ msg, (processDelegate mainFolder registeredFolders sourceFolder targetFolder
        allowDelegation st run).outcome = .error msg targetFolder := by
  unfold processDelegate
  cases hd : authorizeDelegation mainFolder registeredFolders sourceFolder
      targetFolder allowDelegation with
  | allow => exact absurd hd hrej
  | denyEscalation => exact ⟨rfl, rfl, "Not authorized", rfl⟩
  | denyNotAllowed => exact ⟨rfl, rfl, "Not authorized", rfl⟩
  | unknownGroup => exact ⟨rfl, rfl, "Unknown group", rfl⟩

theorem rejected_delegation_no_effect_witness :
    (processDelegate "main" ["main", "browser", "research", "finance"]
        "research" "finance" ["browser"] 0 (Except.ok ([], none))).state = 0 ∧
    (processDelegate "main" ["main", "browser", "research", "finance"]
        "research" "finance" ["browser"] 0 (Except.ok ([], none))).spawned = false ∧
    ∃ msg, (processDelegate "main" ["main", "browser", "research", "finance"]
        "research" "finance" ["browser"] 0 (Except.ok ([], none))).outcome
      = .error msg "finance" :=
  rejected_delegation_no_effect "main" ["main", "browser", "research", "finance"]
    "research" "finance" ["browser"] 0 (Except.ok ([], none)) (by decide)

/-- The polling loop times out when neither artifact appears at any polled tick. -/
theorem pollLoop_timeout (env : PollEnv) (requestId : String) :
    ∀ (fuel start : Nat),
      (∀ t, t < fuel → env.resultAt (start + t) = none ∧ env.errorAt (start + t) = none) →
      pollLoop env requestId start fuel = (.timeout, []) := by
  intro fuel
  induction fuel with
  | zero => intro start _; rfl
  | succ fuel ih =>
      intro start habsent
      have h0 := habsent 0 (Nat.succ_pos fuel)
      simp only [Nat.add_zero] at h0
      show pollLoop env requestId start (fuel + 1) = (.timeout, [])
      rw [pollLoop, h0.1, h0.2]
      exact ih (start + 1) fun t ht => by
        have := habsent (t + 1) (by omega)
        simpa [Nat.add_assoc, Nat.add_comm 1 t] using this

/-- The polling loop returns (and consumes) the result artifact found at the
first tick where it is present. -/
theorem pollLoop_finds_result (env : PollEnv) (requestId : String) :
    ∀ (fuel start t : Nat) (c : String), t < fuel →
      (∀ t', t' < t → env.resultAt (start + t') = none ∧ env.errorAt (start + t') = none) →
      env.resultAt (start + t) = some c →
      pollLoop env requestId start fuel = (.result c, [resultFileName requestId]) := by
  intro fuel
  induction fuel with
  | zero => intro start t c ht _ _; omega
  | succ fuel ih =>
      intro start t c ht hearly hfound
      cases t with
      | zero =>
          simp only [Nat.add_zero] at hfound
          rw [pollLoop, hfound]
      | succ t =>
          have h0 := hearly 0 (Nat.succ_pos t)
          simp only [Nat.add_zero] at h0
          rw [pollLoop, h0.1, h0.2]
          exact ih (start + 1) t c (by omega)
            (fun t' ht' => by
              have := hearly (t' + 1) (by omega)
              simpa [Nat.add_assoc, Nat.add_comm 1 t'] using this)
            (by simpa [Nat.add_assoc, Nat.add_comm 1 t] using hfound)

/-- The polling loop returns (and consumes) the error artifact found at the
first tick where either artifact is present. -/
theorem pollLoop_finds_error (env : PollEnv) (requestId : String) :
    ∀ (fuel start t : Nat) (c : String), t < fuel →
      (∀ t', t' < t → env.resultAt (start + t') = none ∧ env.errorAt (start + t') = none) →
      env.resultAt (start + t) = none → env.errorAt (start + t) = some c →
      pollLoop env requestId start fuel = (.error c, [errorFileName requestId]) := by
  intro fuel
  induction fuel with
  | zero => intro start t c ht _ _ _; omega
  | succ fuel ih =>
      intro start t c ht hearly hnores hfound
      cases t with
      | zero =>
          simp only [Nat.add_zero] at hnores hfound
          rw [pollLoop, hnores, hfound]
      | succ t =>
          have h0 := hearly 0 (Nat.succ_pos t)
          simp only [Nat.add_zero] at h0
          rw [pollLoop, h0.1, h0.2]
          exact ih (start + 1) t c (by omega)
            (fun t' ht' => by
              have := hearly (t' + 1) (by omega)
              simpa [Nat.add_assoc, Nat.add_comm 1 t'] using this)
            (by simpa [Nat.add_assoc, Nat.add_comm 1 t] using hnores)
            (by simpa [Nat.add_assoc, Nat.add_comm 1 t] using hfound)

/-- C7: the requester polls once per `DELEGATION_POLL_INTERVAL`; on the first
tick where the success (or error) artifact is present within the budget it
returns the parsed outcome and deletes that artifact (consume-once); if the
budget elapses with neither artifact present it returns the client-side
timeout outcome. -/
theorem awaitResult_spec (env : PollEnv) (requestId : String) (timeoutMs : Nat) :
    ((∀ t, t < timeoutMs / DELEGATION_POLL_INTERVAL →
        env.resultAt t = none ∧ env.errorAt t = none) →
      awaitResult env requestId timeoutMs = (.timeout, [])) ∧
    (∀ t c, t < timeoutMs / DELEGATION_POLL_INTERVAL →
      (∀ t', t' < t → env.resultAt t' = none ∧ env.errorAt t' = none) →
      env.resultAt t = some c →
      awaitResult env requestId timeoutMs = (.result c, [resultFileName requestId])) ∧
    (∀ t c, t < timeoutMs / DELEGATION_POLL_INTERVAL →
      (∀ t', t' < t → env.resultAt t' = none ∧ env.errorAt t' = none) →
      env.resultAt t = none → env.errorAt t = some c →
      awaitResult env requestId timeoutMs = (.error c, [errorFileName requestId])) := by
  refine ⟨?_, ?_, ?_⟩
  · intro habsent
    exact pollLoop_timeout env requestId _ 0 (by simpa using habsent)
  · intro t c ht hearly hfound
    exact pollLoop_finds_result env requestId _ 0 t c ht
      (by simpa using hearly) (by simpa using hfound)
  · intro t c ht hearly hnores hfound
    exact pollLoop_finds_error env requestId _ 0 t c ht
      (by simpa using hearly) (by simpa using hnores) (by simpa using hfound)

/-- A sample result-channel environment: the success artifact appears at the
second poll tick. -/
def pollEnv₀ : PollEnv :=
  { resultAt := fun t => if t = 1 then some "done" else none
    errorAt := fun _ => none }

/-- An environment in which no artifact ever appears. -/
def pollEnvEmpty : PollEnv := { resultAt := fun _ => none, errorAt := fun _ => none }

theorem awaitResult_spec_witness :
    awaitResult pollEnv₀ "req1" 300000 = (.result "done", [resultFileName "req1"]) ∧
    awaitResult pollEnvEmpty "req2" 300000 = (.timeout, []) :=
  ⟨(awaitResult_spec pollEnv₀ "req1" 300000).2.1 1 "done" (by decide)
      (by decide) (by decide),
   (awaitResult_spec pollEnvEmpty "req2" 300000).1 (fun t _ => ⟨rfl, rfl⟩)⟩

/-- The slices produced by the sending loop concatenate back to the text. -/
theorem chunkText_flatten (l : List Char) : (chunkText l).flatten = l := by
  rw [chunkText]
  split
  · simp [*]
  · rw [List.flatten_cons, chunkText_flatten (l.drop TELEGRAM_MAX_LENGTH)]
    exact List.take_append_drop _ l
termination_by l.length
decreasing_by
  simp only [List.length_drop, TELEGRAM_MAX_LENGTH]
  have : 0 < l.length := List.length_pos.mpr (by assumption)
  omega

/-- Every slice produced by the sending loop fits the Telegram limit. -/
theorem chunkText_length_le (l : List Char) :
    ∀ c ∈ chunkText l, c.length ≤ TELEGRAM_MAX_LENGTH := by
  rw [chunkText]
  split
  · simp
  · intro c hc
    rcases List.mem_cons.mp hc with rfl | hc
    · exact List.length_take_le _ l
    · exact chunkText_length_le (l.drop TELEGRAM_MAX_LENGTH) c hc
termination_by l.length
decreasing_by
  simp only [List.length_drop, TELEGRAM_MAX_LENGTH]
  have : 0 < l.length := List.length_pos.mpr (by assumption)
  omega

/-- C8: `sendMessage` sends text of at most 4096 characters as one API call,
longer text as consecutive slices of at most 4096 characters whose
concatenation is the original text, and it resolves (only logging) whatever
the API calls do — no exception reaches the caller. -/
theorem sendMessage_chunking (text : List Char) :
    (sendMessageCalls text).flatten = text ∧
    (∀ c ∈ sendMessageCalls text, c.length ≤ TELEGRAM_MAX_LENGTH) ∧
    (text.length ≤ TELEGRAM_MAX_LENGTH → sendMessageCalls text = [text]) ∧
    (∀ api, sendMessage api text = .ok ()) := by
  refine ⟨?_, ?_, ?_, ?_⟩
  · unfold sendMessageCalls
    split
    · simp
    · exact chunkText_flatten text
  · unfold sendMessageCalls
    split
    · rename_i hle
      intro c hc
      rcases List.mem_singleton.mp hc with rfl
      exact hle
    · exact chunkText_length_le text
  · intro hle
    simp [sendMessageCalls, hle]
  · intro api
    unfold sendMessage
    split <;> rfl

theorem sendMessage_chunking_witness :
    (sendMessageCalls ['h', 'i']).flatten = ['h', 'i'] ∧
    sendMessageCalls ['h', 'i'] = [['h', 'i']] ∧
    sendMessage (fun _ => Except.error "network down") ['h', 'i'] = .ok () :=
  ⟨(sendMessage_chunking ['h', 'i']).1,
   (sendMessage_chunking ['h', 'i']).2.2.1 (by decide),
   (sendMessage_chunking ['h', 'i']).2.2.2 (fun _ => Except.error "network down")⟩

/-- A channel configuration with a non-empty allowlist not containing user "2". -/
def cfg₀ : TgConfig :=
  { allowedUsers := ["1"]
    assistantName := "Andy"
    trigger := fun _ => false
    registeredGroups := []
    adminAvailable := false
    botUsername := none
    adminResult := fun _ => "" }

/-- C9 as stated is false: an unauthorized sender's `/ping` still makes the
bot reply, so the system's outputs are not the same as if the message had
never arrived. -/
theorem telegram_unauthorized_ping_replies :
    allowedUser cfg₀ "2" = false ∧
    handleUpdate cfg₀ (.textMsg "2" "5" "/ping" [])
      = [.reply "Andy is online."] ∧
    handleUpdate cfg₀ (.textMsg "2" "5" "/ping" []) ≠ [] := by
  refine ⟨by decide, by decide, by decide⟩

/-- C9 amended: an inbound message from a sender outside a non-empty
`TELEGRAM_ALLOWED_USERS` never reaches `onMessage` or `onChatMetadata` and
executes no admin command — every effect it can still produce is a bot reply
(from the public `/chatid` and `/ping` commands), and a non-command text or
non-text message produces no effect at all. -/
theorem telegram_unauthorized_no_effect (cfg : TgConfig) (u : TgUpdate)
    (hu : allowedUser cfg (updUser u) = false) :
    (handleUpdate cfg u).all TgEffect.isReply = true ∧
    (plainMessage u = true → handleUpdate cfg u = []) := by
  cases u with
  | textMsg userId chatId msgText entities =>
      simp only [updUser] at hu
      by_cases hc : isCommandText msgText
      · constructor
        · simp only [handleUpdate, hc, if_true]
          unfold handleCommand
          split
          · simp [TgEffect.isReply]
          · split
            · simp [TgEffect.isReply]
            · split
              · simp [adminGuard, hu]
              · split
                · simp [hu]
                · simp
        · intro hplain
          simp [plainMessage, hc] at hplain
      · constructor
        · simp [handleUpdate, hc, handleText, hu]
        · intro _
          simp [handleUpdate, hc, handleText, hu]
  | nonTextMsg userId chatId placeholder caption =>
      simp only [updUser] at hu
      exact ⟨by simp [handleUpdate, handleNonText, hu],
             fun _ => by simp [handleUpdate, handleNonText, hu]⟩

theorem telegram_unauthorized_no_effect_witness :
    (handleUpdate cfg₀ (.nonTextMsg "2" "5" "[Photo]" none)).all TgEffect.isReply
      = true ∧
    handleUpdate cfg₀ (.nonTextMsg "2" "5" "[Photo]" none) = [] :=
  ⟨(telegram_unauthorized_no_effect cfg₀ (.nonTextMsg "2" "5" "[Photo]" none)
      (by decide)).1,
   (telegram_unauthorized_no_effect cfg₀ (.nonTextMsg "2" "5" "[Photo]" none)
      (by decide)).2 rfl⟩

/-- C10: a non-command text from an allowed user in a registered chat is
delivered to `onMessage` with the mention-translated content: prefixed with
`@ASSISTANT_NAME ` exactly when a mention entity equals the bot's username
(case-insensitively) and `TRIGGER_PATTERN` does not already match; otherwise
the content is delivered unchanged. -/
theorem telegram_mention_translation (cfg : TgConfig)
    (userId chatId msgText : String) (entities : List TgEntity)
    (hcmd : isCommandText msgText = false)
    (hallow : allowedUser cfg userId = true)
    (hreg : (folderOf cfg (tgJid chatId)).isSome = true) :
    handleUpdate cfg (.textMsg userId chatId msgText entities)
      = [.chatMetadata (tgJid chatId),
         .message (tgJid chatId) (translateMention cfg msgText entities) userId] ∧
    (∀ u, cfg.botUsername = some u →
        isBotMentioned (jsToLower u) msgText entities = true →
        cfg.trigger msgText = false →
        translateMention cfg msgText entities
          = "@" ++ cfg.assistantName ++ " " ++ msgText) ∧
    (cfg.botUsername = none → translateMention cfg msgText entities = msgText) ∧
    (∀ u, cfg.botUsername = some u →
        (isBotMentioned (jsToLower u) msgText entities && !cfg.trigger msgText)
          = false →
        translateMention cfg msgText entities = msgText) := by
  refine ⟨?_, ?_, ?_, ?_⟩
  · rcases hf : folderOf cfg (tgJid chatId) with _ | f
    · rw [hf] at hreg
      simp at hreg
    · simp [handleUpdate, hcmd, handleText, hallow, hf]
  · intro u hbu hm ht
    simp [translateMention, hbu, hm, ht]
  · intro hbu
    simp [translateMention, hbu]
  · intro u hbu hcond
    simp [translateMention, hbu, hcond]

/-- A channel configuration with an open allowlist, one registered chat and
a known bot username. -/
def cfg₁ : TgConfig :=
  { allowedUsers := []
    assistantName := "Andy"
    trigger := fun _ => false
    registeredGroups := [("tg:5", "family")]
    adminAvailable := true
    botUsername := some "MyBot"
    adminResult := fun _ => "done" }

theorem telegram_mention_translation_witness :
    handleUpdate cfg₁ (.textMsg "7" "5" "@mybot hello" [⟨"mention", 0, 6⟩])
      = [.chatMetadata "tg:5",
         .message "tg:5"
           (translateMention cfg₁ "@mybot hello" [⟨"mention", 0, 6⟩]) "7"] ∧
    translateMention cfg₁ "@mybot hello" [⟨"mention", 0, 6⟩]
      = "@" ++ cfg₁.assistantName ++ " " ++ "@mybot hello" :=
  ⟨(telegram_mention_translation cfg₁ "7" "5" "@mybot hello" [⟨"mention", 0, 6⟩]
      (by decide) (by decide) (by decide)).1,
   (telegram_mention_translation cfg₁ "7" "5" "@mybot hello" [⟨"mention", 0, 6⟩]
      (by decide) (by decide) (by decide)).2.1 "MyBot" rfl (by decide) (by decide)⟩

end Nanoclaw
